import Mathlib

/-!
# Verification of the prdman record repository

A shallow embedding of the story/PRD record repository of `prdman`
(`src/services/StoryRepoJson.ts`, `src/services/PasswordService.ts`,
`src/domain/Story.ts`) and proofs of its specified properties.

Modelling conventions:
* The persisted JSON object mapping collection keys to record arrays is an
  association list `DataStore := List (String × List StoryItem)` preserving
  JavaScript object key insertion order.
* JavaScript `Date` timestamps are modelled by a `now : Nat` parameter.
* JavaScript numbers used as priorities are modelled by `Int`.
* Each repository operation loads the store once at entry and saves at most
  once; the embedding returns the operation result, the resulting persisted
  store, and the number of load/save calls performed.
-/

namespace Prdman

/-- `Status = Schema.Literal("todo", "done", "sent-back")` from `Story.ts`. -/
inductive Status where
  | todo
  | done
  | sentBack
deriving DecidableEq

/-- The stored record entity `StoryItem` from `Story.ts` (after decoding:
`acceptanceCriteria` defaults to `[]`, `locked` defaults to `false`). -/
structure StoryItem where
  id : String
  priority : Int
  name : String
  description : String
  steps : List String
  acceptanceCriteria : List String
  status : Status
  note : Option String
  createdAt : Nat
  updatedAt : Nat
  locked : Bool
deriving DecidableEq

/-- The create/import input `StoryItemInput` from `Story.ts` (after decoding). -/
structure StoryItemInput where
  id : String
  priority : Int
  name : String
  description : String
  steps : List String
  acceptanceCriteria : List String
  status : Status
  note : Option String
deriving DecidableEq

/-- The partial-update input `StoryItemPartialInput` from `Story.ts`:
every field is optional (`undefined` = absent). -/
structure StoryItemPartialInput where
  id : Option String := none
  priority : Option Int := none
  name : Option String := none
  description : Option String := none
  steps : Option (List String) := none
  acceptanceCriteria : Option (List String) := none
  status : Option Status := none
  note : Option String := none
deriving DecidableEq

/-- The import-file shape `ImportFile` from `Story.ts`. -/
structure ImportFile where
  id : String
  items : List StoryItemInput
deriving DecidableEq

/-- The typed repository errors from `domain/errors.ts`. -/
inductive RepoError where
  | storyNotFound (prdId id : String)
  | storyLocked (id : String)
  | duplicateId (prdId id : String)
  | prdHasLockedStories (prdId : String) (lockedIds : List String)
deriving DecidableEq

/-- The persisted collection store: a JSON object keyed by collection id,
modelled as an insertion-ordered association list. -/
abbrev DataStore := List (String × List StoryItem)

instance {ε α : Type} [DecidableEq ε] [DecidableEq α] : DecidableEq (Except ε α) := fun x y =>
  match x, y with
  | .ok a, .ok b =>
    if h : a = b then .isTrue (h ▸ rfl) else .isFalse (fun hc => h (Except.ok.inj hc))
  | .error a, .error b =>
    if h : a = b then .isTrue (h ▸ rfl) else .isFalse (fun hc => h (Except.error.inj hc))
  | .ok _, .error _ => .isFalse (fun hc => Except.noConfusion hc)
  | .error _, .ok _ => .isFalse (fun hc => Except.noConfusion hc)

/-- Result of one repository operation: the typed result, the persisted store
after the operation, and how many times the store was loaded and saved. -/
structure RepoOut (α : Type) where
  res : Except RepoError α
  store : DataStore
  loads : Nat
  saves : Nat
deriving DecidableEq

/-- `getPrdStories` from `StoryRepoJson.ts`: `data[prdId] ?? []`. -/
def getPrdStories (data : DataStore) (prdId : String) : List StoryItem :=
  match data.find? (fun kv => kv.1 == prdId) with
  | some kv => kv.2
  | none => []

/-- JavaScript object spread update `{...data, [k]: v}`: replaces the value of
an existing key in place, otherwise appends the key at the end. -/
def storeSet (data : DataStore) (k : String) (v : List StoryItem) : DataStore :=
  if data.any (fun kv => kv.1 == k) then
    data.map (fun kv => if kv.1 == k then (k, v) else kv)
  else
    data ++ [(k, v)]

/-- JavaScript rest-destructuring removal `const { [k]: _, ...rest } = data`. -/
def storeRemove (data : DataStore) (k : String) : DataStore :=
  data.filter (fun kv => kv.1 != k)

/-- `stories[index] = y` after `index = stories.findIndex(p)`: replace the
first element satisfying `p`. -/
def replaceFirst (p : StoryItem → Bool) (y : StoryItem) : List StoryItem → List StoryItem
  | [] => []
  | x :: xs => if p x then y :: xs else x :: replaceFirst p y xs

/-- `StoryItem.make({...input, createdAt: now, updatedAt: now, locked: false})`. -/
def stampInput (now : Nat) (input : StoryItemInput) : StoryItem :=
  { id := input.id
    priority := input.priority
    name := input.name
    description := input.description
    steps := input.steps
    acceptanceCriteria := input.acceptanceCriteria
    status := input.status
    note := input.note
    createdAt := now
    updatedAt := now
    locked := false }

/-- `StoryRepo.create` from `StoryRepoJson.ts`. -/
def create (now : Nat) (data : DataStore) (prdId : String) (input : StoryItemInput) :
    RepoOut StoryItem :=
  let stories := getPrdStories data prdId
  if stories.any (fun story => story.id == input.id) then
    ⟨.error (.duplicateId prdId input.id), data, 1, 0⟩
  else
    let newStory := stampInput now input
    ⟨.ok newStory, storeSet data prdId (stories ++ [newStory]), 1, 1⟩

/-- The object-spread merge inside `StoryRepo.update`: fields present in the
partial override, absent fields keep the prior value, and the trailing
explicit fields force `id`/`createdAt`/`locked` unchanged and `updatedAt = now`. -/
def mergePartial (now : Nat) (existing : StoryItem) (patch : StoryItemPartialInput) :
    StoryItem :=
  { id := existing.id
    priority := patch.priority.getD existing.priority
    name := patch.name.getD existing.name
    description := patch.description.getD existing.description
    steps := patch.steps.getD existing.steps
    acceptanceCriteria := patch.acceptanceCriteria.getD existing.acceptanceCriteria
    status := patch.status.getD existing.status
    note := patch.note.or existing.note
    createdAt := existing.createdAt
    updatedAt := now
    locked := existing.locked }

/-- `StoryRepo.update` from `StoryRepoJson.ts`. -/
def update (now : Nat) (data : DataStore) (prdId id : String)
    (patch : StoryItemPartialInput) : RepoOut StoryItem :=
  let stories := getPrdStories data prdId
  match stories.find? (fun story => story.id == id) with
  | none => ⟨.error (.storyNotFound prdId id), data, 1, 0⟩
  | some existing =>
    if existing.locked then
      ⟨.error (.storyLocked id), data, 1, 0⟩
    else
      let updated := mergePartial now existing patch
      let newStories := replaceFirst (fun story => story.id == id) updated stories
      ⟨.ok updated, storeSet data prdId newStories, 1, 1⟩

/-- `StoryRepo.updateStatus` from `StoryRepoJson.ts`: no lock check. -/
def updateStatus (now : Nat) (data : DataStore) (prdId id : String) (status : Status) :
    RepoOut StoryItem :=
  let stories := getPrdStories data prdId
  match stories.find? (fun story => story.id == id) with
  | none => ⟨.error (.storyNotFound prdId id), data, 1, 0⟩
  | some existing =>
    let updated := { existing with status := status, updatedAt := now }
    let newStories := replaceFirst (fun story => story.id == id) updated stories
    ⟨.ok updated, storeSet data prdId newStories, 1, 1⟩

/-- `StoryRepo.delete` from `StoryRepoJson.ts`. -/
def delete_ (data : DataStore) (prdId id : String) : RepoOut Unit :=
  let stories := getPrdStories data prdId
  match stories.find? (fun story => story.id == id) with
  | none => ⟨.error (.storyNotFound prdId id), data, 1, 0⟩
  | some story =>
    if story.locked then
      ⟨.error (.storyLocked id), data, 1, 0⟩
    else
      let newStories := stories.filter (fun story => story.id != id)
      ⟨.ok (), storeSet data prdId newStories, 1, 1⟩

/-- The comparator of `StoryRepo.list`: `(a, b) => a.priority - b.priority`. -/
def priorityLe (a b : StoryItem) : Prop :=
  a.priority ≤ b.priority

instance : DecidableRel priorityLe := fun a b => Int.decLe a.priority b.priority

/-- `StoryRepo.list` from `StoryRepoJson.ts`:
`[...stories].sort((a, b) => a.priority - b.priority)`. JavaScript
`Array.prototype.sort` is a stable sort, so it is modelled by the stable
insertion sort on the comparator's total preorder. -/
def list (data : DataStore) (prdId : String) : RepoOut (List StoryItem) :=
  let stories := getPrdStories data prdId
  ⟨.ok (stories.insertionSort priorityLe), data, 1, 0⟩

/-- `StoryRepo.get` from `StoryRepoJson.ts`. -/
def get (data : DataStore) (prdId id : String) : RepoOut StoryItem :=
  let stories := getPrdStories data prdId
  match stories.find? (fun story => story.id == id) with
  | none => ⟨.error (.storyNotFound prdId id), data, 1, 0⟩
  | some story => ⟨.ok story, data, 1, 0⟩

/-- `StoryRepo.lock` from `StoryRepoJson.ts`: no lock check. -/
def lock (now : Nat) (data : DataStore) (prdId id : String) : RepoOut Unit :=
  let stories := getPrdStories data prdId
  match stories.find? (fun story => story.id == id) with
  | none => ⟨.error (.storyNotFound prdId id), data, 1, 0⟩
  | some existing =>
    let updated := { existing with locked := true, updatedAt := now }
    let newStories := replaceFirst (fun story => story.id == id) updated stories
    ⟨.ok (), storeSet data prdId newStories, 1, 1⟩

/-- `StoryRepo.unlock` from `StoryRepoJson.ts`: no lock check. -/
def unlock (now : Nat) (data : DataStore) (prdId id : String) : RepoOut Unit :=
  let stories := getPrdStories data prdId
  match stories.find? (fun story => story.id == id) with
  | none => ⟨.error (.storyNotFound prdId id), data, 1, 0⟩
  | some existing =>
    let updated := { existing with locked := false, updatedAt := now }
    let newStories := replaceFirst (fun story => story.id == id) updated stories
    ⟨.ok (), storeSet data prdId newStories, 1, 1⟩

/-- `StoryRepo.listPrds` from `StoryRepoJson.ts`:
`Object.keys(data).filter(k => (data[k]?.length ?? 0) > 0).sort()`. -/
def listPrds (data : DataStore) : RepoOut (List String) :=
  let keys := (data.map (fun kv => kv.1)).filter
    (fun key => (getPrdStories data key).length > 0)
  ⟨.ok (keys.insertionSort (fun a b => a ≤ b)), data, 1, 0⟩

/-- The `for (const input of importData.items)` loop of `StoryRepo.importFile`,
carrying the accumulated stories, the id set, and the two counters. -/
def importLoop (now : Nat) :
    List StoryItemInput → List StoryItem → List String → Nat → Nat →
    List StoryItem × Nat × Nat
  | [], stories, _, created, skipped => (stories, created, skipped)
  | input :: rest, stories, ids, created, skipped =>
    if ids.contains input.id then
      importLoop now rest stories ids created (skipped + 1)
    else
      importLoop now rest (stories ++ [stampInput now input]) (input.id :: ids)
        (created + 1) skipped

/-- `StoryRepo.importFile` from `StoryRepoJson.ts`. -/
def importFile (now : Nat) (data : DataStore) (importData : ImportFile) :
    RepoOut (Nat × Nat) :=
  let stories := getPrdStories data importData.id
  let out := importLoop now importData.items stories (stories.map (fun story => story.id)) 0 0
  ⟨.ok (out.2.1, out.2.2), storeSet data importData.id out.1, 1, 1⟩

/-- `StoryRepo.deletePrd` from `StoryRepoJson.ts`. -/
def deletePrd (data : DataStore) (prdId : String) : RepoOut Nat :=
  let stories := getPrdStories data prdId
  if stories.length = 0 then
    ⟨.ok 0, data, 1, 0⟩
  else
    let lockedIds := (stories.filter (fun story => story.locked)).map (fun story => story.id)
    if lockedIds.length > 0 then
      ⟨.error (.prdHasLockedStories prdId lockedIds), data, 1, 0⟩
    else
      ⟨.ok stories.length, storeRemove data prdId, 1, 1⟩

/-- `StoryRepo.deletePrdForce` from `StoryRepoJson.ts`. -/
def deletePrdForce (data : DataStore) (prdId : String) : RepoOut Nat :=
  let stories := getPrdStories data prdId
  let deleted := stories.length
  if deleted = 0 then
    ⟨.ok 0, data, 1, 0⟩
  else
    ⟨.ok deleted, storeRemove data prdId, 1, 1⟩

/-- The typed errors of `PasswordService.verify`. -/
inductive PasswordError where
  | passwordNotConfigured
  | invalidPassword
deriving DecidableEq

/-- JavaScript `String.prototype.trim`: strips leading and trailing
whitespace characters. -/
def jsTrim (s : String) : String :=
  ⟨((s.data.dropWhile Char.isWhitespace).reverse.dropWhile Char.isWhitespace).reverse⟩

/-- `PasswordService.verify` from `PasswordService.ts`: `storedFile` is the
content of the password file when it exists (`none` = file absent). -/
def verify (storedFile : Option String) (password : String) : Except PasswordError Unit :=
  match storedFile with
  | none => .error .passwordNotConfigured
  | some storedPassword =>
    if jsTrim storedPassword ≠ password then .error .invalidPassword
    else .ok ()

/-- Decoding of the `Status` literal schema from a JSON string. -/
def decodeStatus (s : String) : Option Status :=
  if s = "todo" then some .todo
  else if s = "done" then some .done
  else if s = "sent-back" then some .sentBack
  else none

/-- The raw JSON shape of a stored record before decoding through the
`StoryItem` schema: `acceptanceCriteria`, `note` and `locked` may be absent. -/
structure StoryItemRaw where
  id : String
  priority : Int
  name : String
  description : String
  steps : List String
  acceptanceCriteria : Option (List String)
  status : String
  note : Option String
  createdAt : Nat
  updatedAt : Nat
  locked : Option Bool
deriving DecidableEq

/-- Decoding through the `StoryItem` schema of `Story.ts`: `name` must be
non-empty (`Schema.NonEmptyString`), `status` must be one of the three
literals, `id` is an unrefined branded string, `acceptanceCriteria` defaults
to `[]` and `locked` defaults to `false` when absent. -/
def decodeStoryItem (raw : StoryItemRaw) : Option StoryItem :=
  if raw.name = "" then none
  else
    (decodeStatus raw.status).map fun status =>
      { id := raw.id
        priority := raw.priority
        name := raw.name
        description := raw.description
        steps := raw.steps
        acceptanceCriteria := raw.acceptanceCriteria.getD []
        status := status
        note := raw.note
        createdAt := raw.createdAt
        updatedAt := raw.updatedAt
        locked := raw.locked.getD false }

/-- The raw JSON shape of a create/import input before decoding through the
`StoryItemInput` schema. -/
structure StoryItemInputRaw where
  id : String
  priority : Int
  name : String
  description : String
  steps : List String
  acceptanceCriteria : Option (List String)
  status : String
  note : Option String
deriving DecidableEq

/-- Decoding through the `StoryItemInput` schema of `Story.ts`: `name` must be
non-empty, `status` a literal; the `id` field (`StoryId`) is
`Schema.String.pipe(Schema.brand("StoryId"))` — a brand with no runtime
refinement, so any string is accepted. -/
def decodeStoryItemInput (raw : StoryItemInputRaw) : Option StoryItemInput :=
  if raw.name = "" then none
  else
    (decodeStatus raw.status).map fun status =>
      { id := raw.id
        priority := raw.priority
        name := raw.name
        description := raw.description
        steps := raw.steps
        acceptanceCriteria := raw.acceptanceCriteria.getD []
        status := status
        note := raw.note }

/-- The spec's record-id format, stated for comparison with the code:
a string of the shape `XXX-YYYY`, i.e. one or more uppercase letters,
a hyphen, and exactly 4 digits. -/
def specIdPattern (s : String) : Bool :=
  let a := s.data.takeWhile (fun c => c != '-')
  match s.data.drop a.length with
  | '-' :: b =>
    decide (0 < a.length) && a.all (fun c => c.isUpper) &&
      decide (b.length = 4) && b.all (fun c => c.isDigit)
  | _ => false

/-- The spec's description of which import-batch items survive: an item
survives iff its id collides neither with an id in `ids` (the pre-existing
ids) nor with an earlier surviving item of the batch; later duplicates are
dropped, so each surviving id keeps its first occurrence. -/
def specFirstOccurrences (ids : List String) :
    List StoryItemInput → List StoryItemInput
  | [] => []
  | x :: xs =>
    if ids.contains x.id then specFirstOccurrences ids xs
    else x :: specFirstOccurrences (x.id :: ids) xs

/-- Record ids are unique within each collection of the store. -/
def idsUnique (data : DataStore) : Prop :=
  ∀ kv ∈ data, (kv.2.map (fun story => story.id)).Nodup

/-- The stores reachable from the empty store (the store `load` returns for a
missing or empty data file) by repository operations. -/
inductive Reachable : DataStore → Prop where
  | empty : Reachable []
  | viaCreate (now prdId input) {s} : Reachable s →
      Reachable ((create now s prdId input).store)
  | viaUpdate (now prdId id patch) {s} : Reachable s →
      Reachable ((update now s prdId id patch).store)
  | viaUpdateStatus (now prdId id status) {s} : Reachable s →
      Reachable ((updateStatus now s prdId id status).store)
  | viaDelete (prdId id) {s} : Reachable s →
      Reachable ((delete_ s prdId id).store)
  | viaLock (now prdId id) {s} : Reachable s →
      Reachable ((lock now s prdId id).store)
  | viaUnlock (now prdId id) {s} : Reachable s →
      Reachable ((unlock now s prdId id).store)
  | viaImportFile (now importData) {s} : Reachable s →
      Reachable ((importFile now s importData).store)
  | viaDeletePrd (prdId) {s} : Reachable s →
      Reachable ((deletePrd s prdId).store)
  | viaDeletePrdForce (prdId) {s} : Reachable s →
      Reachable ((deletePrdForce s prdId).store)

/-! ## Theorems -/

/-- C8: `verify` fails with `NotConfigured` exactly when no secret file
exists; otherwise it fails with `InvalidPassword` exactly when the stored
secret trimmed of surrounding whitespace is not character-for-character equal
to the untrimmed candidate, and succeeds otherwise; in particular a stored
secret that trims to the empty string together with the empty candidate
succeeds. -/
theorem verify_spec (stored : Option String) (s candidate : String) :
    verify none candidate = .error .passwordNotConfigured ∧
    (stored.isSome = true → verify stored candidate ≠ .error .passwordNotConfigured) ∧
    (verify (some s) candidate = .error .invalidPassword ↔ jsTrim s ≠ candidate) ∧
    (verify (some s) candidate = .ok () ↔ jsTrim s = candidate) ∧
    (jsTrim s = "" → verify (some s) "" = .ok ()) := by
  refine ⟨rfl, ?_, ?_, ?_, ?_⟩
  · intro hs
    match stored with
    | some v =>
      simp only [verify]
      split <;> simp
    | none => simp at hs
  · simp only [verify]
    split <;> simp_all
  · simp only [verify]
    split <;> simp_all
  · intro h
    simp [verify, h]

/-- Witness for C8 at a concrete whitespace-only stored secret. -/
theorem verify_spec_witness : verify (some ("  ")) "" = .ok () :=
  (verify_spec (some ("  ")) "  " "").2.2.2.2 (by decide)

/-- C2 counterexample: the id `"abc"` does not match the spec's `XXX-YYYY`
pattern, yet the input decode boundary accepts it (the `StoryId` schema is a
brand with no runtime refinement). -/
theorem decode_accepts_nonpattern_id :
    specIdPattern ("abc") = false ∧
    decodeStoryItemInput
        { id := "abc", priority := 1, name := "Story name", description := "",
          steps := [], acceptanceCriteria := none, status := "todo", note := none } =
      some { id := "abc", priority := 1, name := "Story name", description := "",
             steps := [], acceptanceCriteria := [], status := .todo, note := none } := by
  decide

/-- C2 amended: the decode boundary does not validate the record-id format at
all: decoding an input succeeds exactly when its `name` is non-empty and its
`status` is one of the three literals, independently of the id string, and the
id is passed through unchanged. -/
theorem decode_id_unconstrained (raw : StoryItemInputRaw) (s : String) :
    ((decodeStoryItemInput raw).isSome = true ↔
      raw.name ≠ "" ∧ (decodeStatus raw.status).isSome = true) ∧
    (decodeStoryItemInput { raw with id := s }).isSome =
      (decodeStoryItemInput raw).isSome ∧
    (∀ item, decodeStoryItemInput raw = some item → item.id = raw.id) := by
  refine ⟨?_, ?_, ?_⟩
  · simp only [decodeStoryItemInput]
    split <;> cases h : decodeStatus raw.status <;> simp_all
  · simp only [decodeStoryItemInput]
    split <;> cases h : decodeStatus raw.status <;> simp_all
  · intro item hitem
    simp only [decodeStoryItemInput] at hitem
    split at hitem
    · simp at hitem
    · cases h : decodeStatus raw.status <;> rw [h] at hitem <;> simp at hitem
      subst hitem
      rfl

/-- Witness for C2's amended theorem: a pattern-conforming id also decodes. -/
theorem decode_id_unconstrained_witness :
    (decodeStoryItemInput
      { id := "AUTH-0001", priority := 1, name := "n", description := "",
        steps := [], acceptanceCriteria := none, status := "todo",
        note := none }).isSome = true :=
  (decode_id_unconstrained
    { id := "AUTH-0001", priority := 1, name := "n", description := "",
      steps := [], acceptanceCriteria := none, status := "todo", note := none }
    "x").1.mpr ⟨by decide, by decide⟩

/-- C10: a stored record decoded without a `locked` field is treated as
`locked = false`, and one without an `acceptanceCriteria` field as having the
empty array; decoding behaves exactly as if those defaults had been stored
explicitly, and the decode succeeds whenever the rest of the record is valid. -/
theorem decode_defaults (raw : StoryItemRaw) :
    decodeStoryItem { raw with locked := none, acceptanceCriteria := none } =
      decodeStoryItem { raw with locked := some false, acceptanceCriteria := some [] } ∧
    (∀ item,
      decodeStoryItem { raw with locked := none, acceptanceCriteria := none } = some item →
      item.locked = false ∧ item.acceptanceCriteria = []) ∧
    (raw.name ≠ "" → (decodeStatus raw.status).isSome = true →
      (decodeStoryItem { raw with locked := none, acceptanceCriteria := none }).isSome = true) := by
  refine ⟨?_, ?_, ?_⟩
  · simp [decodeStoryItem]
  · intro item hitem
    simp only [decodeStoryItem] at hitem
    split at hitem
    · simp at hitem
    · cases h : decodeStatus raw.status <;> rw [h] at hitem <;> simp at hitem
      subst hitem
      exact ⟨rfl, rfl⟩
  · intro hname hstatus
    simp only [decodeStoryItem]
    split
    · simp_all
    · cases h : decodeStatus raw.status <;> simp_all

/-- Witness for C10 at a concrete legacy record lacking both fields. -/
theorem decode_defaults_witness :
    decodeStoryItem
        { id := "AUTH-0001", priority := 1, name := "n", description := "",
          steps := [], acceptanceCriteria := none, status := "todo",
          note := none, createdAt := 0, updatedAt := 0, locked := none } =
      some { id := "AUTH-0001", priority := 1, name := "n", description := "",
             steps := [], acceptanceCriteria := [], status := .todo,
             note := none, createdAt := 0, updatedAt := 0, locked := false } ∧
    (false = false ∧ ([] : List String) = []) := by
  have h := decode_defaults
    { id := "AUTH-0001", priority := 1, name := "n", description := "",
      steps := [], acceptanceCriteria := none, status := "todo",
      note := none, createdAt := 0, updatedAt := 0, locked := none }
  refine ⟨by decide, h.2.1
    { id := "AUTH-0001", priority := 1, name := "n", description := "",
      steps := [], acceptanceCriteria := [], status := .todo,
      note := none, createdAt := 0, updatedAt := 0, locked := false } (by decide)⟩

/-- A locked record used by concrete witnesses. -/
def witLocked : StoryItem :=
  { id := "AUTH-0001", priority := 2, name := "a", description := "", steps := [],
    acceptanceCriteria := [], status := .todo, note := none,
    createdAt := 0, updatedAt := 0, locked := true }

/-- An unlocked record used by concrete witnesses. -/
def witUnlocked : StoryItem :=
  { id := "AUTH-0002", priority := 1, name := "b", description := "", steps := ["s"],
    acceptanceCriteria := ["c"], status := .todo, note := none,
    createdAt := 0, updatedAt := 0, locked := false }

/-- A store with one locked and one unlocked record, used by witnesses. -/
def witStore : DataStore := [("AUTH", [witLocked, witUnlocked])]

/-- C1: for a record whose `locked` flag is true, `update` and `delete` fail
with the `Locked` error and leave the stored collection map unchanged, while
`updateStatus` succeeds (ignoring the lock) and `lock`/`unlock` succeed. -/
theorem locked_record_behavior (now : Nat) (data : DataStore) (prdId id : String)
    (patch : StoryItemPartialInput) (status : Status) (st : StoryItem)
    (h : (getPrdStories data prdId).find? (fun story => story.id == id) = some st)
    (hl : st.locked = true) :
    (update now data prdId id patch).res = .error (.storyLocked id) ∧
    (update now data prdId id patch).store = data ∧
    (delete_ data prdId id).res = .error (.storyLocked id) ∧
    (delete_ data prdId id).store = data ∧
    (updateStatus now data prdId id status).res =
      .ok { st with status := status, updatedAt := now } ∧
    (lock now data prdId id).res = .ok () ∧
    (unlock now data prdId id).res = .ok () := by
  refine ⟨?_, ?_, ?_, ?_, ?_, ?_, ?_⟩ <;>
    simp [update, delete_, updateStatus, lock, unlock, h, hl]

/-- Witness for C1 at a concrete locked record. -/
theorem locked_record_behavior_witness :
    (update 5 witStore ("AUTH") "AUTH-0001" {}).res = .error (.storyLocked ("AUTH-0001")) ∧
    (delete_ witStore ("AUTH") "AUTH-0001").store = witStore ∧
    (updateStatus 5 witStore ("AUTH") "AUTH-0001" .done).res =
      .ok { witLocked with status := .done, updatedAt := 5 } := by
  have h := locked_record_behavior 5 witStore ("AUTH") "AUTH-0001" {} .done witLocked
    (by decide) (by decide)
  exact ⟨h.1, h.2.2.2.1, h.2.2.2.2.1⟩

/-- C4: `update` on an existing unlocked record merges exactly the fields
present in the partial input (absent fields keep their prior values, supplied
arrays wholly replace the prior arrays, an explicitly empty array clears),
keeps `id`, `createdAt` and `locked` regardless of the partial's content, and
sets `updatedAt` to the current time. -/
theorem update_merge (now : Nat) (data : DataStore) (prdId id : String)
    (patch : StoryItemPartialInput) (existing : StoryItem)
    (h : (getPrdStories data prdId).find? (fun story => story.id == id) = some existing)
    (hnl : existing.locked = false) :
    ∃ u, (update now data prdId id patch).res = .ok u ∧
      (∀ x, patch.priority = some x → u.priority = x) ∧
      (patch.priority = none → u.priority = existing.priority) ∧
      (∀ x, patch.name = some x → u.name = x) ∧
      (patch.name = none → u.name = existing.name) ∧
      (∀ x, patch.description = some x → u.description = x) ∧
      (patch.description = none → u.description = existing.description) ∧
      (∀ x, patch.steps = some x → u.steps = x) ∧
      (patch.steps = none → u.steps = existing.steps) ∧
      (∀ x, patch.acceptanceCriteria = some x → u.acceptanceCriteria = x) ∧
      (patch.acceptanceCriteria = none → u.acceptanceCriteria = existing.acceptanceCriteria) ∧
      (∀ x, patch.status = some x → u.status = x) ∧
      (patch.status = none → u.status = existing.status) ∧
      (∀ x, patch.note = some x → u.note = some x) ∧
      (patch.note = none → u.note = existing.note) ∧
      u.id = existing.id ∧
      u.createdAt = existing.createdAt ∧
      u.locked = existing.locked ∧
      u.updatedAt = now := by
  refine ⟨mergePartial now existing patch, by simp [update, h, hnl], ?_, ?_, ?_, ?_, ?_, ?_,
    ?_, ?_, ?_, ?_, ?_, ?_, ?_, ?_, rfl, rfl, rfl, rfl⟩ <;>
    first
      | (intro x hx; simp [mergePartial, hx, Option.or])
      | (intro hx; simp [mergePartial, hx, Option.or])

/-- Witness for C4: a supplied empty `steps` array clears the prior one while
an absent `name` keeps its prior value. -/
theorem update_merge_witness :
    ∃ u, (update 7 witStore ("AUTH") "AUTH-0002"
        { steps := some [] }).res = .ok u ∧
      u.steps = [] ∧ u.name = witUnlocked.name ∧ u.updatedAt = 7 := by
  obtain ⟨u, h1, h⟩ := update_merge 7 witStore ("AUTH") "AUTH-0002"
    { steps := some [] } witUnlocked (by decide) (by decide)
  exact ⟨u, h1, h.2.2.2.2.2.2.1 [] rfl, h.2.2.2.1 rfl, h.2.2.2.2.2.2.2.2.2.2.2.2.2.2.2.2.2⟩

lemma getPrdStories_storeRemove (data : DataStore) (k : String) :
    getPrdStories (storeRemove data k) k = [] := by
  unfold getPrdStories storeRemove
  cases hfind : (data.filter (fun kv => kv.1 != k)).find? (fun kv => kv.1 == k) with
  | none => rfl
  | some kv =>
    have hmem := List.mem_of_find?_eq_some hfind
    have hkeep := List.of_mem_filter hmem
    have hk := List.find?_some hfind
    simp at hkeep hk
    exact absurd hk hkeep

lemma storeRemove_key_absent (data : DataStore) (k : String) :
    ((storeRemove data k).map (fun kv => kv.1)).contains k = false := by
  unfold storeRemove
  by_contra hcon
  rw [Bool.not_eq_false, List.contains_iff_exists_mem_beq] at hcon
  obtain ⟨k', hmem, hk⟩ := hcon
  obtain ⟨kv, hkv, rfl⟩ := List.mem_map.mp hmem
  have hkeep := List.of_mem_filter hkv
  simp at hk hkeep
  exact hkeep hk.symm

/-- C3: `deletePrd` returns `{deleted: 0}` without error on an empty
collection; when at least one record is locked it fails with
`PrdHasLockedStories` carrying the collection key and the complete list of
locked ids while deleting nothing, and re-invoking it on the unchanged store
yields the identical outcome; otherwise it removes the entire collection key
and returns the number of records removed. -/
theorem deletePrd_spec (data : DataStore) (prdId : String) :
    (getPrdStories data prdId = [] →
      (deletePrd data prdId).res = .ok 0 ∧ (deletePrd data prdId).store = data) ∧
    (((getPrdStories data prdId).filter (fun story => story.locked)).map
        (fun story => story.id) ≠ [] →
      (deletePrd data prdId).res = .error (.prdHasLockedStories prdId
        (((getPrdStories data prdId).filter (fun story => story.locked)).map
          (fun story => story.id))) ∧
      (deletePrd data prdId).store = data ∧
      deletePrd (deletePrd data prdId).store prdId = deletePrd data prdId) ∧
    (getPrdStories data prdId ≠ [] →
      ((getPrdStories data prdId).filter (fun story => story.locked)).map
        (fun story => story.id) = [] →
      (deletePrd data prdId).res = .ok (getPrdStories data prdId).length ∧
      (deletePrd data prdId).store = storeRemove data prdId ∧
      getPrdStories (deletePrd data prdId).store prdId = [] ∧
      (((deletePrd data prdId).store.map (fun kv => kv.1)).contains prdId = false)) := by
  refine ⟨?_, ?_, ?_⟩
  · intro hempty
    simp [deletePrd, hempty]
  · intro hlocked
    have hne : getPrdStories data prdId ≠ [] := by
      intro hempty
      simp [hempty] at hlocked
    have hres : deletePrd data prdId = ⟨.error (.prdHasLockedStories prdId
        (((getPrdStories data prdId).filter (fun story => story.locked)).map
          (fun story => story.id))), data, 1, 0⟩ := by
      unfold deletePrd
      rw [if_neg (by simpa [List.length_eq_zero] using hne),
        if_pos (by simpa [List.length_pos] using hlocked)]
    refine ⟨by rw [hres], by rw [hres], ?_⟩
    conv in (deletePrd data prdId).store => rw [hres]
  · intro hne hunlocked
    have hres : deletePrd data prdId =
        ⟨.ok (getPrdStories data prdId).length, storeRemove data prdId, 1, 1⟩ := by
      unfold deletePrd
      rw [if_neg (by simpa [List.length_eq_zero] using hne),
        if_neg (by simp [hunlocked])]
    rw [hres]
    exact ⟨rfl, rfl, getPrdStories_storeRemove data prdId,
      storeRemove_key_absent data prdId⟩

/-- Witness for C3: a collection with a locked member yields the complete
locked-id list, deletes nothing, and the repeated call is identical. -/
theorem deletePrd_spec_witness :
    (deletePrd witStore ("AUTH")).res =
      .error (.prdHasLockedStories ("AUTH") ["AUTH-0001"]) ∧
    (deletePrd witStore ("AUTH")).store = witStore ∧
    deletePrd (deletePrd witStore ("AUTH")).store ("AUTH") = deletePrd witStore ("AUTH") := by
  have h := (deletePrd_spec witStore ("AUTH")).2.1 (by decide)
  exact ⟨by rw [h.1]; decide, h.2.1, h.2.2⟩

/-- C9 counterexample: the read-only `list` performs no save at all (the
claim asserts exactly one save per invocation for every operation). -/
theorem list_performs_no_save :
    (list ([] : DataStore) "A").saves = 0 ∧ ¬ (list ([] : DataStore) "A").saves = 1 := by
  decide

lemma create_saves (now : Nat) (data : DataStore) (prdId : String) (input : StoryItemInput) :
    (create now data prdId input).saves =
      if (create now data prdId input).res.isOk then 1 else 0 := by
  by_cases hc : ((getPrdStories data prdId).any fun story => story.id == input.id) = true <;>
    simp [create, hc, Except.isOk, Except.toBool]

lemma update_saves (now : Nat) (data : DataStore) (prdId id : String)
    (patch : StoryItemPartialInput) :
    (update now data prdId id patch).saves =
      if (update now data prdId id patch).res.isOk then 1 else 0 := by
  cases hfind : (getPrdStories data prdId).find? (fun story => story.id == id) with
  | none => simp [update, hfind, Except.isOk, Except.toBool]
  | some existing =>
    by_cases hl : existing.locked <;> simp [update, hfind, hl, Except.isOk, Except.toBool]

lemma updateStatus_saves (now : Nat) (data : DataStore) (prdId id : String) (status : Status) :
    (updateStatus now data prdId id status).saves =
      if (updateStatus now data prdId id status).res.isOk then 1 else 0 := by
  cases hfind : (getPrdStories data prdId).find? (fun story => story.id == id) <;>
    simp [updateStatus, hfind, Except.isOk, Except.toBool]

lemma delete_saves (data : DataStore) (prdId id : String) :
    (delete_ data prdId id).saves =
      if (delete_ data prdId id).res.isOk then 1 else 0 := by
  cases hfind : (getPrdStories data prdId).find? (fun story => story.id == id) with
  | none => simp [delete_, hfind, Except.isOk, Except.toBool]
  | some story =>
    by_cases hl : story.locked <;> simp [delete_, hfind, hl, Except.isOk, Except.toBool]

lemma lock_saves (now : Nat) (data : DataStore) (prdId id : String) :
    (lock now data prdId id).saves =
      if (lock now data prdId id).res.isOk then 1 else 0 := by
  cases hfind : (getPrdStories data prdId).find? (fun story => story.id == id) <;>
    simp [lock, hfind, Except.isOk, Except.toBool]

lemma unlock_saves (now : Nat) (data : DataStore) (prdId id : String) :
    (unlock now data prdId id).saves =
      if (unlock now data prdId id).res.isOk then 1 else 0 := by
  cases hfind : (getPrdStories data prdId).find? (fun story => story.id == id) <;>
    simp [unlock, hfind, Except.isOk, Except.toBool]

lemma deletePrd_saves (data : DataStore) (prdId : String) :
    (deletePrd data prdId).saves =
      if getPrdStories data prdId = [] then 0
      else if (deletePrd data prdId).res.isOk then 1 else 0 := by
  by_cases hemp : getPrdStories data prdId = []
  · simp [deletePrd, hemp]
  · by_cases hlock :
      0 < ((getPrdStories data prdId).filter fun story => story.locked).length <;>
      simp [deletePrd, List.length_eq_zero, hemp, hlock, Except.isOk, Except.toBool]

lemma deletePrdForce_saves (data : DataStore) (prdId : String) :
    (deletePrdForce data prdId).saves =
      if getPrdStories data prdId = [] then 0 else 1 := by
  by_cases hemp : getPrdStories data prdId = [] <;>
    simp [deletePrdForce, List.length_eq_zero, hemp]

/-- C9 amended: every repository operation performs exactly one full load, but
only mutating paths save: the read-only `list`, `get` and `listPrds` never
save (and return the store unchanged); `importFile` always saves exactly once;
`create`, `update`, `updateStatus`, `delete`, `lock` and `unlock` save exactly
once on success and never on failure; `deletePrd` and `deletePrdForce` save
exactly once except on an empty collection (where they succeed without
saving) and on the locked-records failure. -/
theorem load_save_profile :
    (∀ now data prdId id input patch status importData,
      (create now data prdId input).loads = 1 ∧
      (update now data prdId id patch).loads = 1 ∧
      (updateStatus now data prdId id status).loads = 1 ∧
      (delete_ data prdId id).loads = 1 ∧
      (list data prdId).loads = 1 ∧
      (get data prdId id).loads = 1 ∧
      (lock now data prdId id).loads = 1 ∧
      (unlock now data prdId id).loads = 1 ∧
      (listPrds data).loads = 1 ∧
      (importFile now data importData).loads = 1 ∧
      (deletePrd data prdId).loads = 1 ∧
      (deletePrdForce data prdId).loads = 1) ∧
    (∀ data prdId id,
      (list data prdId).saves = 0 ∧ (list data prdId).store = data ∧
      (get data prdId id).saves = 0 ∧ (get data prdId id).store = data ∧
      (listPrds data).saves = 0 ∧ (listPrds data).store = data) ∧
    (∀ now data importData, (importFile now data importData).saves = 1) ∧
    (∀ now data prdId id input patch status,
      (create now data prdId input).saves =
        (if (create now data prdId input).res.isOk then 1 else 0) ∧
      (update now data prdId id patch).saves =
        (if (update now data prdId id patch).res.isOk then 1 else 0) ∧
      (updateStatus now data prdId id status).saves =
        (if (updateStatus now data prdId id status).res.isOk then 1 else 0) ∧
      (delete_ data prdId id).saves =
        (if (delete_ data prdId id).res.isOk then 1 else 0) ∧
      (lock now data prdId id).saves =
        (if (lock now data prdId id).res.isOk then 1 else 0) ∧
      (unlock now data prdId id).saves =
        (if (unlock now data prdId id).res.isOk then 1 else 0)) ∧
    (∀ data prdId,
      (deletePrd data prdId).saves =
        (if getPrdStories data prdId = [] then 0
         else if (deletePrd data prdId).res.isOk then 1 else 0) ∧
      (deletePrdForce data prdId).saves =
        (if getPrdStories data prdId = [] then 0 else 1)) := by
  refine ⟨?_, ?_, ?_, ?_, ?_⟩
  · intro now data prdId id input patch status importData
    refine ⟨?_, ?_, ?_, ?_, rfl, ?_, ?_, ?_, rfl, rfl, ?_, ?_⟩
    · simp only [create]; split <;> rfl
    · simp only [update]; split
      · rfl
      · split <;> rfl
    · simp only [updateStatus]; split <;> rfl
    · simp only [delete_]; split
      · rfl
      · split <;> rfl
    · simp only [get]; split <;> rfl
    · simp only [lock]; split <;> rfl
    · simp only [unlock]; split <;> rfl
    · simp only [deletePrd]; split
      · rfl
      · split <;> rfl
    · simp only [deletePrdForce]; split <;> rfl
  · intro data prdId id
    refine ⟨rfl, rfl, ?_, ?_, rfl, rfl⟩ <;>
      cases hfind : (getPrdStories data prdId).find? (fun story => story.id == id) <;>
        simp [get, hfind]
  · exact fun now data importData => rfl
  · exact fun now data prdId id input patch status =>
      ⟨create_saves now data prdId input, update_saves now data prdId id patch,
       updateStatus_saves now data prdId id status, delete_saves data prdId id,
       lock_saves now data prdId id, unlock_saves now data prdId id⟩
  · exact fun data prdId =>
      ⟨deletePrd_saves data prdId, deletePrdForce_saves data prdId⟩

lemma specFirstOccurrences_length_le (ids : List String) (items : List StoryItemInput) :
    (specFirstOccurrences ids items).length ≤ items.length := by
  induction items generalizing ids with
  | nil => simp [specFirstOccurrences]
  | cons x xs ih =>
    unfold specFirstOccurrences
    split
    · exact (ih ids).trans (Nat.le_succ _)
    · simpa using ih (x.id :: ids)

lemma importLoop_eq (now : Nat) (items : List StoryItemInput) (stories : List StoryItem)
    (ids : List String) (created skipped : Nat) :
    importLoop now items stories ids created skipped =
      (stories ++ (specFirstOccurrences ids items).map (stampInput now),
       created + (specFirstOccurrences ids items).length,
       skipped + (items.length - (specFirstOccurrences ids items).length)) := by
  induction items generalizing stories ids created skipped with
  | nil => simp [importLoop, specFirstOccurrences]
  | cons x xs ih =>
    unfold importLoop specFirstOccurrences
    by_cases hx : ids.contains x.id
    · rw [if_pos hx, if_pos hx, ih]
      have hle := specFirstOccurrences_length_le ids xs
      refine Prod.ext rfl (Prod.ext rfl ?_)
      simp only [List.length_cons]
      omega
    · rw [if_neg hx, if_neg hx, ih]
      have hle := specFirstOccurrences_length_le (x.id :: ids) xs
      refine Prod.ext ?_ (Prod.ext ?_ ?_) <;> simp only [List.length_cons]
      · simp
      · omega
      · omega

/-- C6: `importFile` never fails; with `K` colliding items out of `N` it
returns `created = N - K` and `skipped = K`, the records appended to the
collection are exactly the first occurrences of the non-colliding ids in
batch order (later duplicates are dropped), every created record is stamped
`createdAt = updatedAt = now` and `locked = false`, and the store is saved
exactly once. -/
theorem importFile_spec (now : Nat) (data : DataStore) (importData : ImportFile) :
    (importFile now data importData).res =
      .ok ((specFirstOccurrences
              ((getPrdStories data importData.id).map (fun story => story.id))
              importData.items).length,
           importData.items.length -
             (specFirstOccurrences
               ((getPrdStories data importData.id).map (fun story => story.id))
               importData.items).length) ∧
    (importFile now data importData).store =
      storeSet data importData.id
        (getPrdStories data importData.id ++
          (specFirstOccurrences
            ((getPrdStories data importData.id).map (fun story => story.id))
            importData.items).map (stampInput now)) ∧
    (∀ st ∈ (specFirstOccurrences
        ((getPrdStories data importData.id).map (fun story => story.id))
        importData.items).map (stampInput now),
      st.createdAt = now ∧ st.updatedAt = now ∧ st.locked = false) ∧
    (importFile now data importData).saves = 1 := by
  refine ⟨?_, ?_, ?_, rfl⟩
  · simp [importFile, importLoop_eq]
  · simp [importFile, importLoop_eq]
  · intro st hst
    obtain ⟨input, _, rfl⟩ := List.mem_map.mp hst
    exact ⟨rfl, rfl, rfl⟩

/-- An import input colliding with `witStore`, used by witnesses. -/
def witInputDup : StoryItemInput :=
  { id := "AUTH-0001", priority := 1, name := "x", description := "",
    steps := [], acceptanceCriteria := [], status := .todo, note := none }

/-- A fresh import input, used by witnesses. -/
def witInputNew : StoryItemInput :=
  { id := "AUTH-0003", priority := 1, name := "y", description := "",
    steps := [], acceptanceCriteria := [], status := .todo, note := none }

/-- A batch-internal duplicate of `witInputNew`, used by witnesses. -/
def witInputNew2 : StoryItemInput :=
  { id := "AUTH-0003", priority := 2, name := "z", description := "",
    steps := [], acceptanceCriteria := [], status := .todo, note := none }

/-- A three-item import batch with one pre-existing collision and one
batch-internal collision, used by witnesses. -/
def witImport : ImportFile := ⟨"AUTH", [witInputDup, witInputNew, witInputNew2]⟩

/-- Witness for C6: of the three items two collide (one with the store, one
with an earlier batch item), so one record is created and two are skipped. -/
theorem importFile_spec_witness :
    (importFile 3 witStore witImport).res = .ok (1, 2) ∧
    (stampInput 3 witInputNew).locked = false := by
  have h := importFile_spec 3 witStore witImport
  exact ⟨by rw [h.1]; decide, (h.2.2.1 (stampInput 3 witInputNew) (by decide)).2.2⟩

instance : IsTotal StoryItem priorityLe :=
  ⟨fun a b => Int.le_total a.priority b.priority⟩

instance : IsTrans StoryItem priorityLe :=
  ⟨fun _ _ _ hab hbc => le_trans hab hbc⟩

/-- C7: `list` never fails, returns exactly the records of the collection
sorted ascending by `priority` with ties keeping their relative stored order,
returns the empty sequence for an empty collection, and leaves the stored
order (and the store itself) unmodified. -/
theorem list_spec (data : DataStore) (prdId : String) :
    ∃ l, (list data prdId).res = .ok l ∧
      l.Perm (getPrdStories data prdId) ∧
      List.Sorted priorityLe l ∧
      (∀ p : Int, l.filter (fun story => story.priority == p) =
        (getPrdStories data prdId).filter (fun story => story.priority == p)) ∧
      (getPrdStories data prdId = [] → l = []) ∧
      (list data prdId).store = data ∧
      (list data prdId).saves = 0 := by
  refine ⟨(getPrdStories data prdId).insertionSort priorityLe, rfl,
    List.perm_insertionSort priorityLe _, List.sorted_insertionSort priorityLe _,
    ?_, ?_, rfl, rfl⟩
  · intro p
    have hA : ((getPrdStories data prdId).filter
        (fun story => story.priority == p)).Pairwise priorityLe := by
      refine List.pairwise_of_forall_mem_list ?_
      intro a ha b hb
      have ha' := (List.mem_filter.mp ha).2
      have hb' := (List.mem_filter.mp hb).2
      simp only [beq_iff_eq] at ha' hb'
      unfold priorityLe
      rw [ha', hb']
    have hsub : List.Sublist
        ((getPrdStories data prdId).filter (fun story => story.priority == p))
        ((getPrdStories data prdId).insertionSort priorityLe) :=
      List.sublist_insertionSort hA (List.filter_sublist _)
    have hAq : ((getPrdStories data prdId).filter
          (fun story => story.priority == p)).filter (fun story => story.priority == p) =
        (getPrdStories data prdId).filter (fun story => story.priority == p) :=
      List.filter_eq_self.mpr (fun a ha => (List.mem_filter.mp ha).2)
    have hsub2 : List.Sublist
        ((getPrdStories data prdId).filter (fun story => story.priority == p))
        (((getPrdStories data prdId).insertionSort priorityLe).filter
          (fun story => story.priority == p)) := by
      have h := hsub.filter (fun story => story.priority == p)
      rwa [hAq] at h
    have hlen : (((getPrdStories data prdId).insertionSort priorityLe).filter
          (fun story => story.priority == p)).length =
        ((getPrdStories data prdId).filter (fun story => story.priority == p)).length :=
      ((List.perm_insertionSort priorityLe
        (getPrdStories data prdId)).filter (fun story => story.priority == p)).length_eq
    exact (hsub2.eq_of_length hlen.symm).symm
  · intro hempty
    rw [hempty]
    rfl

/-- Witness for C7: listing an absent collection yields the empty sequence
without saving. -/
theorem list_spec_witness :
    ∃ l, (list ([] : DataStore) "A").res = .ok l ∧ l = [] ∧
      (list ([] : DataStore) "A").saves = 0 := by
  obtain ⟨l, hres, _, _, _, hemp, _, hsaves⟩ := list_spec [] "A"
  exact ⟨l, hres, hemp rfl, hsaves⟩

lemma contains_iff (l : List String) (a : String) : l.contains a = true ↔ a ∈ l := by
  simp [List.contains_iff_exists_mem_beq]

lemma idsUnique_get {data : DataStore} (h : idsUnique data) (prdId : String) :
    ((getPrdStories data prdId).map (fun story => story.id)).Nodup := by
  unfold getPrdStories
  cases hfind : data.find? (fun kv => kv.1 == prdId) with
  | none => simp
  | some kv => exact h kv (List.mem_of_find?_eq_some hfind)

lemma idsUnique_storeSet {data : DataStore} {v : List StoryItem} {k : String}
    (h : idsUnique data) (hv : (v.map (fun story => story.id)).Nodup) :
    idsUnique (storeSet data k v) := by
  intro kv hkv
  unfold storeSet at hkv
  split at hkv
  · obtain ⟨kv0, hkv0, heq⟩ := List.mem_map.mp hkv
    by_cases hk : (kv0.1 == k) = true
    · rw [if_pos hk] at heq
      rw [← heq]
      exact hv
    · rw [if_neg hk] at heq
      rw [← heq]
      exact h kv0 hkv0
  · rcases List.mem_append.mp hkv with hmem | hmem
    · exact h kv hmem
    · simp only [List.mem_singleton] at hmem
      rw [hmem]
      exact hv

lemma idsUnique_storeRemove {data : DataStore} (h : idsUnique data) (k : String) :
    idsUnique (storeRemove data k) :=
  fun kv hkv => h kv (List.mem_of_mem_filter hkv)

lemma replaceFirst_map_id {p : StoryItem → Bool} {y : StoryItem} {l : List StoryItem}
    (hy : ∀ x ∈ l, p x = true → y.id = x.id) :
    (replaceFirst p y l).map (fun story => story.id) = l.map (fun story => story.id) := by
  induction l with
  | nil => rfl
  | cons x xs ih =>
    unfold replaceFirst
    by_cases hx : p x = true
    · rw [if_pos hx]
      simp [hy x (List.mem_cons_self x xs) hx]
    · rw [if_neg hx]
      simp [ih (fun a ha hp => hy a (List.mem_cons_of_mem x ha) hp)]

lemma nodup_append_new {stories : List StoryItem} {input : StoryItemInput} (now : Nat)
    (hnod : (stories.map (fun story => story.id)).Nodup)
    (hnew : (stories.any fun story => story.id == input.id) = false) :
    ((stories ++ [stampInput now input]).map (fun story => story.id)).Nodup := by
  rw [List.map_append]
  rw [List.nodup_append]
  refine ⟨hnod, List.nodup_singleton _, ?_⟩
  intro a ha hb
  simp only [List.map_cons, List.map_nil, List.mem_singleton] at hb
  obtain ⟨st, hst, rfl⟩ := List.mem_map.mp ha
  have := List.any_eq_false.mp hnew st hst
  simp only [beq_iff_eq] at this
  exact this (by simpa [stampInput] using hb)

lemma spec_nodup (now : Nat) (items : List StoryItemInput) (stories : List StoryItem)
    (ids : List String)
    (hnod : (stories.map (fun story => story.id)).Nodup)
    (hids : ∀ st ∈ stories, st.id ∈ ids) :
    ((stories ++ (specFirstOccurrences ids items).map (stampInput now)).map
      (fun story => story.id)).Nodup := by
  induction items generalizing stories ids with
  | nil => simpa [specFirstOccurrences]
  | cons x xs ih =>
    unfold specFirstOccurrences
    by_cases hx : ids.contains x.id = true
    · rw [if_pos hx]
      exact ih stories ids hnod hids
    · rw [if_neg hx]
      rw [List.map_cons, List.append_cons]
      refine ih (stories ++ [stampInput now x]) (x.id :: ids) ?_ ?_
      · have hnew : (stories.any fun story => story.id == x.id) = false := by
          rw [List.any_eq_false]
          intro st hst
          simp only [beq_iff_eq]
          intro heq
          exact hx ((contains_iff ids x.id).mpr (heq ▸ hids st hst))
        exact nodup_append_new now hnod hnew
      · intro st hst
        rcases List.mem_append.mp hst with hmem | hmem
        · exact List.mem_cons_of_mem _ (hids st hmem)
        · simp only [List.mem_singleton] at hmem
          rw [hmem]
          exact List.mem_cons_self _ _

lemma create_preserves {data : DataStore} (now : Nat) (prdId : String)
    (input : StoryItemInput) (h : idsUnique data) :
    idsUnique ((create now data prdId input).store) := by
  by_cases hc : ((getPrdStories data prdId).any fun story => story.id == input.id) = true
  · have hst : (create now data prdId input).store = data := by simp [create, hc]
    rw [hst]
    exact h
  · have hst : (create now data prdId input).store =
        storeSet data prdId (getPrdStories data prdId ++ [stampInput now input]) := by
      simp [create, hc]
    rw [hst]
    exact idsUnique_storeSet h
      (nodup_append_new now (idsUnique_get h prdId) (by simpa using hc))

lemma update_preserves {data : DataStore} (now : Nat) (prdId id : String)
    (patch : StoryItemPartialInput) (h : idsUnique data) :
    idsUnique ((update now data prdId id patch).store) := by
  cases hfind : (getPrdStories data prdId).find? (fun story => story.id == id) with
  | none =>
    have hst : (update now data prdId id patch).store = data := by simp [update, hfind]
    rw [hst]; exact h
  | some existing =>
    by_cases hl : existing.locked = true
    · have hst : (update now data prdId id patch).store = data := by simp [update, hfind, hl]
      rw [hst]; exact h
    · have hst : (update now data prdId id patch).store =
          storeSet data prdId (replaceFirst (fun story => story.id == id)
            (mergePartial now existing patch) (getPrdStories data prdId)) := by
        simp [update, hfind, hl]
      rw [hst]
      refine idsUnique_storeSet h ?_
      rw [replaceFirst_map_id]
      · exact idsUnique_get h prdId
      · intro x _ hp
        have h1 := List.find?_some hfind
        simp only [beq_iff_eq] at h1 hp
        simpa [mergePartial, h1] using hp.symm

lemma updateStatus_preserves {data : DataStore} (now : Nat) (prdId id : String)
    (status : Status) (h : idsUnique data) :
    idsUnique ((updateStatus now data prdId id status).store) := by
  cases hfind : (getPrdStories data prdId).find? (fun story => story.id == id) with
  | none =>
    have hst : (updateStatus now data prdId id status).store = data := by
      simp [updateStatus, hfind]
    rw [hst]; exact h
  | some existing =>
    have hst : (updateStatus now data prdId id status).store =
        storeSet data prdId (replaceFirst (fun story => story.id == id)
          { existing with status := status, updatedAt := now }
          (getPrdStories data prdId)) := by
      simp [updateStatus, hfind]
    rw [hst]
    refine idsUnique_storeSet h ?_
    rw [replaceFirst_map_id]
    · exact idsUnique_get h prdId
    · intro x _ hp
      have h1 := List.find?_some hfind
      simp only [beq_iff_eq] at h1 hp
      simpa [h1] using hp.symm

lemma delete_preserves {data : DataStore} (prdId id : String) (h : idsUnique data) :
    idsUnique ((delete_ data prdId id).store) := by
  cases hfind : (getPrdStories data prdId).find? (fun story => story.id == id) with
  | none =>
    have hst : (delete_ data prdId id).store = data := by simp [delete_, hfind]
    rw [hst]; exact h
  | some story =>
    by_cases hl : story.locked = true
    · have hst : (delete_ data prdId id).store = data := by simp [delete_, hfind, hl]
      rw [hst]; exact h
    · have hst : (delete_ data prdId id).store =
          storeSet data prdId ((getPrdStories data prdId).filter
            (fun story => story.id != id)) := by
        simp [delete_, hfind, hl]
      rw [hst]
      refine idsUnique_storeSet h ?_
      have hsub : List.Sublist
          (((getPrdStories data prdId).filter (fun story => story.id != id)).map
            (fun story => story.id))
          ((getPrdStories data prdId).map (fun story => story.id)) :=
        List.Sublist.map (fun story : StoryItem => story.id)
          (List.filter_sublist (getPrdStories data prdId))
      exact (idsUnique_get h prdId).sublist hsub

lemma lock_preserves {data : DataStore} (now : Nat) (prdId id : String) (h : idsUnique data) :
    idsUnique ((lock now data prdId id).store) := by
  cases hfind : (getPrdStories data prdId).find? (fun story => story.id == id) with
  | none =>
    have hst : (lock now data prdId id).store = data := by simp [lock, hfind]
    rw [hst]; exact h
  | some existing =>
    have hst : (lock now data prdId id).store =
        storeSet data prdId (replaceFirst (fun story => story.id == id)
          { existing with locked := true, updatedAt := now }
          (getPrdStories data prdId)) := by
      simp [lock, hfind]
    rw [hst]
    refine idsUnique_storeSet h ?_
    rw [replaceFirst_map_id]
    · exact idsUnique_get h prdId
    · intro x _ hp
      have h1 := List.find?_some hfind
      simp only [beq_iff_eq] at h1 hp
      simpa [h1] using hp.symm

lemma unlock_preserves {data : DataStore} (now : Nat) (prdId id : String)
    (h : idsUnique data) :
    idsUnique ((unlock now data prdId id).store) := by
  cases hfind : (getPrdStories data prdId).find? (fun story => story.id == id) with
  | none =>
    have hst : (unlock now data prdId id).store = data := by simp [unlock, hfind]
    rw [hst]; exact h
  | some existing =>
    have hst : (unlock now data prdId id).store =
        storeSet data prdId (replaceFirst (fun story => story.id == id)
          { existing with locked := false, updatedAt := now }
          (getPrdStories data prdId)) := by
      simp [unlock, hfind]
    rw [hst]
    refine idsUnique_storeSet h ?_
    rw [replaceFirst_map_id]
    · exact idsUnique_get h prdId
    · intro x _ hp
      have h1 := List.find?_some hfind
      simp only [beq_iff_eq] at h1 hp
      simpa [h1] using hp.symm

lemma importFile_preserves {data : DataStore} (now : Nat) (importData : ImportFile)
    (h : idsUnique data) :
    idsUnique ((importFile now data importData).store) := by
  have hst : (importFile now data importData).store =
      storeSet data importData.id
        (getPrdStories data importData.id ++
          (specFirstOccurrences
            ((getPrdStories data importData.id).map (fun story => story.id))
            importData.items).map (stampInput now)) := by
    simp [importFile, importLoop_eq]
  rw [hst]
  exact idsUnique_storeSet h
    (spec_nodup now importData.items _ _ (idsUnique_get h importData.id)
      (fun st hst => List.mem_map_of_mem _ hst))

lemma deletePrd_preserves {data : DataStore} (prdId : String) (h : idsUnique data) :
    idsUnique ((deletePrd data prdId).store) := by
  by_cases hemp : (getPrdStories data prdId).length = 0
  · have hst : (deletePrd data prdId).store = data := by simp [deletePrd, hemp]
    rw [hst]; exact h
  · by_cases hlock :
      0 < ((getPrdStories data prdId).filter fun story => story.locked).length
    · have hst : (deletePrd data prdId).store = data := by simp [deletePrd, hemp, hlock]
      rw [hst]; exact h
    · have hst : (deletePrd data prdId).store = storeRemove data prdId := by
        simp [deletePrd, hemp, hlock]
      rw [hst]
      exact idsUnique_storeRemove h prdId

lemma deletePrdForce_preserves {data : DataStore} (prdId : String) (h : idsUnique data) :
    idsUnique ((deletePrdForce data prdId).store) := by
  by_cases hemp : (getPrdStories data prdId).length = 0
  · have hst : (deletePrdForce data prdId).store = data := by simp [deletePrdForce, hemp]
    rw [hst]; exact h
  · have hst : (deletePrdForce data prdId).store = storeRemove data prdId := by
      simp [deletePrdForce, hemp]
    rw [hst]
    exact idsUnique_storeRemove h prdId

/-- C5: every store reachable by repository operations has unique record ids
within each collection; `create` fails with `DuplicateId` exactly when the id
already occurs in the collection (and then leaves the store unchanged); and
the same id string may exist in two different collections: creating it in a
second collection succeeds. -/
theorem unique_ids :
    (∀ s, Reachable s → idsUnique s) ∧
    (∀ now data prdId input,
      ((create now data prdId input).res = .error (.duplicateId prdId input.id) ↔
        ((getPrdStories data prdId).any fun story => story.id == input.id) = true) ∧
      (((getPrdStories data prdId).any fun story => story.id == input.id) = true →
        (create now data prdId input).store = data)) ∧
    (∀ now data prdId prdId' input, prdId ≠ prdId' →
      ((getPrdStories data prdId).any fun story => story.id == input.id) = true →
      ((getPrdStories data prdId').any fun story => story.id == input.id) = false →
      ∃ st, (create now data prdId' input).res = .ok st) := by
  refine ⟨?_, ?_, ?_⟩
  · intro s hs
    induction hs with
    | empty => intro kv hkv; simp at hkv
    | viaCreate now prdId input _ ih => exact create_preserves now prdId input ih
    | viaUpdate now prdId id patch _ ih => exact update_preserves now prdId id patch ih
    | viaUpdateStatus now prdId id status _ ih =>
        exact updateStatus_preserves now prdId id status ih
    | viaDelete prdId id _ ih => exact delete_preserves prdId id ih
    | viaLock now prdId id _ ih => exact lock_preserves now prdId id ih
    | viaUnlock now prdId id _ ih => exact unlock_preserves now prdId id ih
    | viaImportFile now importData _ ih => exact importFile_preserves now importData ih
    | viaDeletePrd prdId _ ih => exact deletePrd_preserves prdId ih
    | viaDeletePrdForce prdId _ ih => exact deletePrdForce_preserves prdId ih
  · intro now data prdId input
    by_cases hc : ((getPrdStories data prdId).any fun story => story.id == input.id) = true <;>
      simp [create, hc]
  · intro now data prdId prdId' input _ _ hfresh
    exact ⟨stampInput now input, by simp [create, hfresh]⟩

/-- Witness for C5: `AUTH-0001` already exists in collection `AUTH` of
`witStore`, yet creating it in the distinct collection `FEAT` succeeds. -/
theorem unique_ids_witness :
    ∃ st, (create 0 witStore ("FEAT") witInputDup).res = .ok st :=
  unique_ids.2.2 0 witStore ("AUTH") "FEAT" witInputDup
    (by decide) (by decide) (by decide)

end Prdman
